import Mathlib

/-!
Shallow embedding of the goraytracer repository (src/goray/goray.go):
package geom (geometry kernel) and package raytracer (scene model,
shading, concurrent rasterizer).  Float64 arithmetic is modelled by real
arithmetic; `math.MaxFloat64` is the corresponding real constant; Go's
integer-for-loops become folds over `List.range`.  The concurrent stripe
workers of `Render` write disjoint rows of the shared buffer and join
before the image is returned, so they are modelled by sequential folds
over the stripes.
-/

noncomputable section

open scoped Classical

namespace goray

namespace geom

/-- A Point2d lies on a plane orthogonal to the z-axis. -/
@[ext]
structure Point2d where
  x : ℝ
  y : ℝ

/-- A Plane2d is a bounded plane orthogonal to the z-axis: top-left corner,
bottom-right corner, z depth. -/
structure Plane2d where
  tl : Point2d
  br : Point2d
  z : ℝ

/-- Plane2d.Dx from the source: `Br.X - Tl.X`. -/
def Plane2d.Dx (p : Plane2d) : ℝ := p.br.x - p.tl.x

/-- Plane2d.Dy from the source: `Tl.Y - Br.Y`. -/
def Plane2d.Dy (p : Plane2d) : ℝ := p.tl.y - p.br.y

/-- A Point is a 3-dimensional point. -/
@[ext]
structure Point where
  x : ℝ
  y : ℝ
  z : ℝ

/-- FloatsEqual from the source: `math.Abs(lhs-rhs) < epsilon`. -/
def FloatsEqual (lhs rhs epsilon : ℝ) : Prop := |lhs - rhs| < epsilon

/-- PointsEqual: componentwise FloatsEqual. -/
def PointsEqual (lhs rhs : Point) (epsilon : ℝ) : Prop :=
  FloatsEqual lhs.x rhs.x epsilon ∧ FloatsEqual lhs.y rhs.y epsilon ∧
    FloatsEqual lhs.z rhs.z epsilon

/-- Origin sentinel point `Point{0, 0, 0}`. -/
def Origin : Point := ⟨0, 0, 0⟩

/-- A Line is a line segment; the source uses `[2]Point`, here fields `p0`
and `p1` stand for `l[0]` and `l[1]`. -/
structure Line where
  p0 : Point
  p1 : Point

@[ext]
structure Vector where
  x : ℝ
  y : ℝ
  z : ℝ

/-- MakeVector from the source: elementwise `head - tail`. -/
def MakeVector (head tail : Point) : Vector :=
  ⟨head.x - tail.x, head.y - tail.y, head.z - tail.z⟩

/-- Vector.Module: `math.Sqrt(v.X*v.X + v.Y*v.Y + v.Z*v.Z)`. -/
def Vector.Module (v : Vector) : ℝ :=
  Real.sqrt (v.x * v.x + v.y * v.y + v.z * v.z)

/-- Vector.UnitVector: divide each component by the module. -/
def Vector.UnitVector (v : Vector) : Vector :=
  let m := v.Module
  ⟨v.x / m, v.y / m, v.z / m⟩

/-- DotProduct of two vectors. -/
def DotProduct (lhs rhs : Vector) : ℝ :=
  lhs.x * rhs.x + lhs.y * rhs.y + lhs.z * rhs.z

/-- VectorsEqual: componentwise FloatsEqual. -/
def VectorsEqual (lhs rhs : Vector) (epsilon : ℝ) : Prop :=
  FloatsEqual lhs.x rhs.x epsilon ∧ FloatsEqual lhs.y rhs.y epsilon ∧
    FloatsEqual lhs.z rhs.z epsilon

structure Sphere where
  center : Point
  radius : ℝ

/-- Sphere.NormalVectorAt from the source:
`v := MakeVector(*p, s.Center); return v.UnitVector()`. -/
def Sphere.NormalVectorAt (s : Sphere) (p : Point) : Vector :=
  (MakeVector p s.center).UnitVector

/-- The value of Go's `math.MaxFloat64`, used as the sentinel parameter of a
missed intersection and as the initial minimum in `castRay`. -/
def maxFloat64 : ℝ := (2 ^ 53 - 1) * 2 ^ 971

/-- Coefficient `a` computed inside SphereLineIntersection:
`dx*dx + dy*dy + dz*dz`. -/
def sliA (l : Line) : ℝ :=
  (l.p1.x - l.p0.x) * (l.p1.x - l.p0.x) + (l.p1.y - l.p0.y) * (l.p1.y - l.p0.y) +
    (l.p1.z - l.p0.z) * (l.p1.z - l.p0.z)

/-- Coefficient `b` computed inside SphereLineIntersection. -/
def sliB (s : Sphere) (l : Line) : ℝ :=
  2 * (l.p1.x - l.p0.x) * (l.p0.x - s.center.x) +
    2 * (l.p1.y - l.p0.y) * (l.p0.y - s.center.y) +
    2 * (l.p1.z - l.p0.z) * (l.p0.z - s.center.z)

/-- Coefficient `c` computed inside SphereLineIntersection. -/
def sliC (s : Sphere) (l : Line) : ℝ :=
  s.center.x * s.center.x + s.center.y * s.center.y + s.center.z * s.center.z +
    l.p0.x * l.p0.x + l.p0.y * l.p0.y + l.p0.z * l.p0.z -
    2 * (s.center.x * l.p0.x + s.center.y * l.p0.y + s.center.z * l.p0.z) -
    s.radius * s.radius

/-- Discriminant `d = b*b - 4*a*c` computed inside SphereLineIntersection. -/
def sliD (s : Sphere) (l : Line) : ℝ :=
  sliB s l * sliB s l - 4 * sliA l * sliC s l

/-- The point of `l` at parameter `t` of its parametric equation
`l[0] + t*(l[1]-l[0])`, the equation SphereLineIntersection substitutes into
the sphere equation and evaluates at the root it returns. -/
def linePointAt (l : Line) (t : ℝ) : Point :=
  ⟨l.p0.x + t * (l.p1.x - l.p0.x),
    l.p0.y + t * (l.p1.y - l.p0.y),
    l.p0.z + t * (l.p1.z - l.p0.z)⟩

/-- Result triple `(p, t, ok)` of SphereLineIntersection. -/
structure SLI where
  p : Point
  t : ℝ
  ok : Bool

/-- SphereLineIntersection from the source.  On `d < 0` the early `return`
yields the initial values `p = Origin`, `t = math.MaxFloat64`, `ok = false`;
otherwise `t = (-b - math.Sqrt(d)) / (2 * a)` and
`p = l[0] + t * (dx, dy, dz)`. -/
def SphereLineIntersection (s : Sphere) (l : Line) : SLI :=
  let dx := l.p1.x - l.p0.x
  let dy := l.p1.y - l.p0.y
  let dz := l.p1.z - l.p0.z
  if sliD s l < 0 then ⟨Origin, maxFloat64, false⟩
  else
    let t := (-(sliB s l) - Real.sqrt (sliD s l)) / (2 * sliA l)
    ⟨⟨l.p0.x + t * dx, l.p0.y + t * dy, l.p0.z + t * dz⟩, t, true⟩

end geom

namespace raytracer

/-- A Color is a red/green/blue triplet of color channels in [0..1] range. -/
@[ext]
structure Color where
  r : ℝ
  g : ℝ
  b : ℝ

/-- isColorChannelValid: `0 <= c && c <= 1`. -/
def isColorChannelValid (c : ℝ) : Prop := 0 ≤ c ∧ c ≤ 1

/-- Validation errors.  Each constructor corresponds to one `fmt.Errorf`
site in the source and carries the data that the formatted message embeds,
so an error value identifies the offending sub-entity. -/
inductive VErr where
  | negativeRadius : VErr
  | colorOutOfRange : Color → VErr
  | invalidSphereColor : VErr → VErr
  | invalidObject : VErr → VErr
  | invalidBackground : VErr → VErr
  | invalidKd : ℝ → VErr
  | degeneratePlane : geom.Plane2d → VErr
  | invalidNearPlane : VErr → VErr
  | invalidFarPlane : VErr → VErr
  | invalidFrustum : VErr → VErr

/-- Color.Validate: ok iff all three channels are valid. -/
def Color.Validate (c : Color) : Option VErr :=
  if isColorChannelValid c.r ∧ isColorChannelValid c.g ∧ isColorChannelValid c.b
  then none
  else some (.colorOutOfRange c)

/-- geom.Sphere.Validate: negative radius is rejected. -/
def _geomSphereValidate (s : geom.Sphere) : Option VErr :=
  if s.radius < 0 then some .negativeRadius else none

/-- Plane2d.Validate from the source:
`if p.Tl.X >= p.Br.X || p.Tl.Y <= p.Br.Y` then error. -/
def _plane2dValidate (p : geom.Plane2d) : Option VErr :=
  if p.tl.x ≥ p.br.x ∨ p.tl.y ≤ p.br.y then some (.degeneratePlane p) else none

/-- Sphere objects are part of the scene to render: a geometric sphere plus
its color. -/
structure Sphere where
  sphere : geom.Sphere
  color : Color

/-- raytracer.Sphere.Validate: sphere first, then color (color errors are
wrapped as `invalid sphere:`). -/
def Sphere.Validate (s : Sphere) : Option VErr :=
  match _geomSphereValidate s.sphere with
  | some e => some e
  | none =>
    match s.color.Validate with
    | some e => some (.invalidSphereColor e)
    | none => none

/-- A Frustum is a pyramidal viewing frustum orthogonal to the z-axis. -/
structure Frustum where
  near : geom.Plane2d
  far : geom.Plane2d

/-- Frustum.Validate: near plane first, then far plane. -/
def Frustum.Validate (f : Frustum) : Option VErr :=
  match _plane2dValidate f.near with
  | some e => some (.invalidNearPlane e)
  | none =>
    match _plane2dValidate f.far with
    | some e => some (.invalidFarPlane e)
    | none => none

/-- The Scene to render. -/
structure Scene where
  viewFrustum : Frustum
  light : geom.Point
  objects : List Sphere
  bg : Color
  kd : ℝ

/-- The `for _, o := range s.Objects` loop of Scene.Validate: first failing
object wins, wrapped as `invalid scene object:`. -/
def validateObjects : List Sphere → Option VErr
  | [] => none
  | o :: rest =>
    match o.Validate with
    | some e => some (.invalidObject e)
    | none => validateObjects rest

/-- Scene.Validate from the source: objects in order, then background color,
then diffuse coefficient, then the frustum (near then far plane). -/
def Scene.Validate (s : Scene) : Option VErr :=
  match validateObjects s.objects with
  | some e => some e
  | none =>
    match s.bg.Validate with
    | some e => some (.invalidBackground e)
    | none =>
      if s.kd < 0 ∨ s.kd > 1 then some (.invalidKd s.kd)
      else
        match s.viewFrustum.Validate with
        | some e => some (.invalidFrustum e)
        | none => none

/-- diffuseShading: `ka := 1 - kd; factor*kd*channel + factor*ka`. -/
def diffuseShading (factor kd channel : ℝ) : ℝ :=
  let ka := 1 - kd
  factor * kd * channel + factor * ka

/-- Loop body of Scene.rayHitsObject: return true on the first object whose
intersection test succeeds. -/
def rayHitsObjectList (ray : geom.Line) : List Sphere → Bool
  | [] => false
  | o :: rest =>
    if (geom.SphereLineIntersection o.sphere ray).ok then true
    else rayHitsObjectList ray rest

/-- rayHitsObject returns whether the ray intersects one object in the
scene. -/
def Scene.rayHitsObject (s : Scene) (ray : geom.Line) : Bool :=
  rayHitsObjectList ray s.objects

/-- Loop state of Scene.castRay: `tmin`, `pmin` and `imin`; the Go sentinel
`imin = -1` is modelled by `none`. -/
structure CastState where
  tmin : ℝ
  pmin : geom.Point
  imin : Option ℕ

/-- The `for i := range s.Objects` loop of castRay: update the state when
the object is hit strictly nearer than the minimum seen so far. -/
def castLoop (ray : geom.Line) : List Sphere → ℕ → CastState → CastState
  | [], _, st => st
  | o :: rest, i, st =>
    let r := geom.SphereLineIntersection o.sphere ray
    let st' : CastState := if r.ok ∧ r.t < st.tmin then ⟨r.t, r.p, some i⟩ else st
    castLoop ray rest (i + 1) st'

/-- castRay finds the nearest intersection point between the ray and the
scene objects.  The Go version returns a pointer `&s.Objects[imin]`; the
index `imin` identifies the same object here. -/
def Scene.castRay (s : Scene) (ray : geom.Line) : Option (ℕ × geom.Point) :=
  let st := castLoop ray s.objects 0 ⟨geom.maxFloat64, geom.Origin, none⟩
  match st.imin with
  | none => none
  | some i => some (i, st.pmin)

/-- computeObjectColorAt: diffuse shading with the clamped dot product of the
unit light vector and the surface normal. -/
def Scene.computeObjectColorAt (s : Scene) (obj : Sphere) (p : geom.Point) :
    Color :=
  let normal := obj.sphere.NormalVectorAt p
  let light := geom.MakeVector s.light p
  let light := light.UnitVector
  let dot := geom.DotProduct light normal
  let dot := if dot < 0 then 0 else dot
  ⟨diffuseShading dot s.kd obj.color.r,
    diffuseShading dot s.kd obj.color.g,
    diffuseShading dot s.kd obj.color.b⟩

/-- bgShadowPixel halves each channel (defined in the source; renderPixel
inlines the same computation for the shadowed background). -/
def bgShadowPixel (c : Color) : Color := ⟨c.r / 2, c.g / 2, c.b / 2⟩

/-- An 8-bit-per-channel RGBA pixel (color.RGBA); channels in 0..255. -/
@[ext]
structure RGBA where
  r : ℕ
  g : ℕ
  b : ℕ
  a : ℕ

/-- toRGBA: `color.RGBA{uint8(c.R*255), uint8(c.G*255), uint8(c.B*255), 255}`.
Go's float-to-uint8 conversion truncates; for the in-range channels
produced by rendering this is the floor. -/
def Color.toRGBA (c : Color) : RGBA :=
  ⟨(⌊c.r * 255⌋).toNat, (⌊c.g * 255⌋).toNat, (⌊c.b * 255⌋).toNat, 255⟩

/-- The x-coordinate `xfar` computed inside renderPixel:
`x * s.ViewFrustum.Far.Dx() / s.ViewFrustum.Near.Dx()`. -/
def Scene.xfar (s : Scene) (x : ℝ) : ℝ :=
  x * s.viewFrustum.far.Dx / s.viewFrustum.near.Dx

/-- The y-coordinate `yfar` computed inside renderPixel:
`y * s.ViewFrustum.Far.Dy() / s.ViewFrustum.Near.Dx()` — note that the
source divides by `Near.Dx()`, not `Near.Dy()`. -/
def Scene.yfar (s : Scene) (y : ℝ) : ℝ :=
  y * s.viewFrustum.far.Dy / s.viewFrustum.near.Dx

/-- The primary ray built inside renderPixel, from the near-plane point to
the extrapolated far-plane point. -/
def Scene.primaryRay (s : Scene) (x y : ℝ) : geom.Line :=
  ⟨⟨x, y, s.viewFrustum.near.z⟩, ⟨s.xfar x, s.yfar y, s.viewFrustum.far.z⟩⟩

/-- Default object used to resolve the index returned by castRay (castRay
only yields indices of existing objects, so the default is never read). -/
def dummyObject : Sphere := ⟨⟨geom.Origin, 0⟩, ⟨0, 0, 0⟩⟩

/-- The intersection result of `ray` with the k-th object of an object list,
as computed by the loop bodies of castRay and rayHitsObject. -/
def hitRes (ray : geom.Line) (l : List Sphere) (k : ℕ) : geom.SLI :=
  geom.SphereLineIntersection (l.getD k dummyObject).sphere ray

/-- The k-th object of the list is hit by the ray (its intersection test
sets ok). -/
def hits (ray : geom.Line) (l : List Sphere) (k : ℕ) : Prop :=
  (hitRes ray l k).ok = true

/-- The Color computed by renderPixel before conversion to RGBA: the
four-way case analysis of the source. -/
def Scene.renderPixelColor (s : Scene) (x y : ℝ) : Color :=
  let ray := s.primaryRay x y
  match s.castRay ray with
  | some (i, ipoint) =>
    let obj := s.objects.getD i dummyObject
    let sray : geom.Line := ⟨s.light, ipoint⟩
    match s.castRay sray with
    | some (j, _) =>
      if j ≠ i then
        ⟨(1 - s.kd) * obj.color.r, (1 - s.kd) * obj.color.g,
          (1 - s.kd) * obj.color.b⟩
      else s.computeObjectColorAt obj ipoint
    | none => s.computeObjectColorAt obj ipoint
  | none =>
    let sray : geom.Line := ⟨⟨s.xfar x, s.yfar y, s.viewFrustum.far.z⟩, s.light⟩
    if s.rayHitsObject sray then ⟨s.bg.r / 2, s.bg.g / 2, s.bg.b / 2⟩
    else s.bg

/-- renderPixel: the shaded color converted to 32bpp. -/
def Scene.renderPixel (s : Scene) (x y : ℝ) : RGBA :=
  (s.renderPixelColor x y).toRGBA

/-- The zero value filling a freshly allocated `image.NewRGBA` buffer. -/
def zeroRGBA : RGBA := ⟨0, 0, 0, 0⟩

/-- The pixel buffer of the output image, addressed by (x, y). -/
def PixMap : Type := ℕ → ℕ → RGBA

/-- The output image: bounds plus pixel buffer. -/
structure Image where
  w : ℕ
  h : ℕ
  pix : PixMap

/-- img.SetRGBA(x, y, c) as a functional buffer update. -/
def setRGBA (f : PixMap) (x y : ℕ) (c : RGBA) : PixMap :=
  fun x' y' => if x' = x ∧ y' = y then c else f x' y'

/-- The pixel value a Render worker computes and stores at integer image
coordinates (x, y): `renderPixel(float64(x)+vp.Tl.X, -vp.Br.Y-float64(y))`. -/
def Scene.pixelAt (s : Scene) (x y : ℕ) : RGBA :=
  s.renderPixel ((x : ℝ) + s.viewFrustum.near.tl.x)
    (-s.viewFrustum.near.br.y - (y : ℝ))

/-- The inner `for x := 0; x < w; x++` loop of a Render worker: render one
row `y` of the image. -/
def Scene.renderRowInto (s : Scene) (w y : ℕ) (f : PixMap) : PixMap :=
  (List.range w).foldl (fun g x => setRGBA g x y (s.pixelAt x y)) f

/-- The `for y := ystart; y < yend; y++` loop of one Render worker. -/
def Scene.renderStripe (s : Scene) (w ystart yend : ℕ) (f : PixMap) : PixMap :=
  (List.range' ystart (yend - ystart)).foldl (fun g y => s.renderRowInto w y g) f

/-- All nstripes workers of Render.  Worker `n` covers rows
`[slice*n, slice*n + slice)`; the rows are pairwise disjoint, so running the
concurrent workers is equivalent to this sequential fold over a zeroed
buffer. -/
def Scene.renderStripes (s : Scene) (w slice nstripes : ℕ) : PixMap :=
  (List.range nstripes).foldl
    (fun g n => s.renderStripe w (slice * n) (slice * n + slice) g)
    (fun _ _ => zeroRGBA)

/-- Image width computed by Render: `int(vp.Dx())` (truncation; equal to the
floor for the positive extents of a validated scene). -/
def Scene.imgW (s : Scene) : ℕ := (⌊s.viewFrustum.near.Dx⌋).toNat

/-- Image height computed by Render: `int(vp.Dy())`. -/
def Scene.imgH (s : Scene) : ℕ := (⌊s.viewFrustum.near.Dy⌋).toNat

/-- Render from the source: clamp the stripe count, validate, then render
`nstripes` horizontal stripes of `slice = h / nstripes` rows each into a
zeroed w×h buffer.  Negative Go stripe counts clamp to 1 exactly like 0. -/
def Scene.Render (s : Scene) (nstripes0 : ℕ) : Except VErr Image :=
  let nstripes := if nstripes0 < 1 then 1 else nstripes0
  match s.Validate with
  | some e => .error e
  | none =>
    let w := s.imgW
    let h := s.imgH
    let slice := h / nstripes
    .ok ⟨w, h, s.renderStripes w slice nstripes⟩

/-- Non-degeneracy of a Plane2d as the specification states it:
`tl.x < br.x` and `tl.y > br.y`. -/
def PlaneValid (p : geom.Plane2d) : Prop := p.tl.x < p.br.x ∧ p.tl.y > p.br.y

/-- All three channels of a color are in range. -/
def ColorValid (c : Color) : Prop :=
  isColorChannelValid c.r ∧ isColorChannelValid c.g ∧ isColorChannelValid c.b

/-- A scene object is valid: nonnegative radius and valid color. -/
def ObjectValid (o : Sphere) : Prop := 0 ≤ o.sphere.radius ∧ ColorValid o.color

/-- All scene invariants together: every object, the background color, the
diffuse coefficient bound, and both frustum planes. -/
def SceneValid (s : Scene) : Prop :=
  (∀ o ∈ s.objects, ObjectValid o) ∧ ColorValid s.bg ∧
    (0 ≤ s.kd ∧ s.kd ≤ 1) ∧ PlaneValid s.viewFrustum.near ∧
    PlaneValid s.viewFrustum.far

end raytracer

/-- Example sphere for concrete checks: center (3,0,0), radius 1. -/
def exSphere : geom.Sphere := ⟨⟨3, 0, 0⟩, 1⟩

/-- Example line from the origin towards (1,0,0). -/
def exLine : geom.Line := ⟨⟨0, 0, 0⟩, ⟨1, 0, 0⟩⟩

/-- Degenerate line whose endpoints coincide. -/
def degLine : geom.Line := ⟨⟨0, 0, 0⟩, ⟨0, 0, 0⟩⟩

/-- Unit sphere centered at the origin. -/
def unitSphere : geom.Sphere := ⟨⟨0, 0, 0⟩, 1⟩

/-- A red color. -/
def red : raytracer.Color := ⟨1, 0, 0⟩

/-- Example scene object: the example sphere colored red. -/
def exObject : raytracer.Sphere := ⟨exSphere, red⟩

/-- Near plane spanning the unit square at z=0 (width 1, height 1). -/
def nearPlane1 : geom.Plane2d := ⟨⟨0, 1⟩, ⟨1, 0⟩, 0⟩

/-- Far plane of width 2 and height 2 at z=10. -/
def farPlane1 : geom.Plane2d := ⟨⟨0, 2⟩, ⟨2, 0⟩, 10⟩

/-- A small valid scene with one object. -/
def exScene : raytracer.Scene := ⟨⟨nearPlane1, farPlane1⟩, ⟨0, 0, 5⟩, [exObject], red, 1/2⟩

/-- Sphere centered at x = MaxFloat64 + 1, radius 1: the ray from the origin
towards (1,0,0) meets it exactly at parameter t = MaxFloat64. -/
def bigSphere : raytracer.Sphere := ⟨⟨⟨geom.maxFloat64 + 1, 0, 0⟩, 1⟩, red⟩

/-- Scene holding only bigSphere. -/
def bigScene : raytracer.Scene := ⟨⟨nearPlane1, farPlane1⟩, ⟨0, 0, 5⟩, [bigSphere], red, 1/2⟩

/-- A valid scene with no objects and near-plane width and height 1. -/
def vScene : raytracer.Scene := ⟨⟨nearPlane1, farPlane1⟩, ⟨0, 0, 5⟩, [], red, 1/2⟩

/-- Near plane of width 1 and height 4. -/
def nearPlane4 : geom.Plane2d := ⟨⟨0, 4⟩, ⟨1, 0⟩, 0⟩

/-- A valid scene with no objects and near-plane height 4. -/
def v4Scene : raytracer.Scene := ⟨⟨nearPlane4, farPlane1⟩, ⟨0, 0, 5⟩, [], red, 1/2⟩

/-- Scene with near-plane width 2 and height 1 but square far plane 4 by 4:
the extents differ, making the y extrapolation observable. -/
def c8Scene : raytracer.Scene :=
  ⟨⟨⟨⟨0, 1⟩, ⟨2, 0⟩, 0⟩, ⟨⟨0, 4⟩, ⟨4, 0⟩, 10⟩⟩, ⟨0, 0, 5⟩, [], red, 1/2⟩

/-- A scene whose single object has radius -1. -/
def badScene : raytracer.Scene :=
  ⟨⟨nearPlane1, farPlane1⟩, ⟨0, 0, 5⟩, [⟨⟨⟨0, 0, 0⟩, -1⟩, red⟩], red, 1/2⟩

/-- The image produced by rendering vScene with 2 stripes. -/
def vImg2 : raytracer.Image :=
  ⟨vScene.imgW, vScene.imgH,
    raytracer.Scene.renderStripes vScene vScene.imgW (vScene.imgH / 2) 2⟩

end goray

namespace goray

open geom raytracer

lemma sliA_nonneg (l : Line) : 0 ≤ sliA l := by
  unfold sliA
  nlinarith [sq_nonneg (l.p1.x - l.p0.x), sq_nonneg (l.p1.y - l.p0.y),
    sq_nonneg (l.p1.z - l.p0.z)]

lemma sliA_pos (l : Line) (h : l.p0 ≠ l.p1) : 0 < sliA l := by
  rcases lt_or_eq_of_le (sliA_nonneg l) with h' | h'
  · exact h'
  · exfalso
    apply h
    unfold sliA at h'
    have hx : l.p1.x - l.p0.x = 0 := by nlinarith
    have hy : l.p1.y - l.p0.y = 0 := by nlinarith
    have hz : l.p1.z - l.p0.z = 0 := by nlinarith
    ext <;> linarith

lemma sli_root (s : geom.Sphere) (l : Line) (hd : 0 ≤ sliD s l) (ha : sliA l ≠ 0) :
    sliA l * ((-(sliB s l) - Real.sqrt (sliD s l)) / (2 * sliA l)) ^ 2 +
      sliB s l * ((-(sliB s l) - Real.sqrt (sliD s l)) / (2 * sliA l)) +
      sliC s l = 0 := by
  have hs : Real.sqrt (sliD s l) ^ 2 = sliD s l := Real.sq_sqrt hd
  have hd' : sliD s l = sliB s l * sliB s l - 4 * sliA l * sliC s l := rfl
  field_simp
  nlinarith [hs, hd']

lemma quad_to_sphere (px py pz cx cy cz qx qy qz t r : ℝ)
    (h : (qx * qx + qy * qy + qz * qz) * t ^ 2 +
        (2 * qx * (px - cx) + 2 * qy * (py - cy) + 2 * qz * (pz - cz)) * t +
        (cx * cx + cy * cy + cz * cz + px * px + py * py + pz * pz -
          2 * (cx * px + cy * py + cz * pz) - r * r) = 0) :
    (px + t * qx - cx) * (px + t * qx - cx) + (py + t * qy - cy) * (py + t * qy - cy) +
      (pz + t * qz - cz) * (pz + t * qz - cz) = r * r := by
  linear_combination h

lemma sli_on_sphere (s : geom.Sphere) (l : Line) (hd : 0 ≤ sliD s l)
    (hr : 0 ≤ s.radius) (hl : l.p0 ≠ l.p1) :
    (MakeVector (SphereLineIntersection s l).p s.center).Module = s.radius := by
  have ha := ne_of_gt (sliA_pos l hl)
  have hroot := sli_root s l hd ha
  set t := (-(sliB s l) - Real.sqrt (sliD s l)) / (2 * sliA l) with htdef
  have hp : (SphereLineIntersection s l).p =
      ⟨l.p0.x + t * (l.p1.x - l.p0.x), l.p0.y + t * (l.p1.y - l.p0.y),
        l.p0.z + t * (l.p1.z - l.p0.z)⟩ := by
    simp [SphereLineIntersection, not_lt.mpr hd]
  rw [hp]
  unfold MakeVector Vector.Module
  dsimp only
  have harg := quad_to_sphere l.p0.x l.p0.y l.p0.z s.center.x s.center.y s.center.z
    (l.p1.x - l.p0.x) (l.p1.y - l.p0.y) (l.p1.z - l.p0.z) t s.radius
    (by unfold sliA sliB sliC at hroot; linear_combination hroot)
  rw [show (l.p0.x + t * (l.p1.x - l.p0.x) - s.center.x) *
        (l.p0.x + t * (l.p1.x - l.p0.x) - s.center.x) +
      (l.p0.y + t * (l.p1.y - l.p0.y) - s.center.y) *
        (l.p0.y + t * (l.p1.y - l.p0.y) - s.center.y) +
      (l.p0.z + t * (l.p1.z - l.p0.z) - s.center.z) *
        (l.p0.z + t * (l.p1.z - l.p0.z) - s.center.z) = s.radius * s.radius
    from harg]
  exact Real.sqrt_mul_self hr

/-- C1 (amended): for every sphere and line, SphereLineIntersection returns
found=false exactly when the discriminant d = b*b-4ac is negative, and then
the point is the Origin sentinel and t is math.MaxFloat64; when d is
nonnegative it returns found=true (regardless of the sign of t) with
t = (-b - sqrt d)/(2a) and the point of the line at parameter t; and for a
sphere of nonnegative radius and a line with distinct endpoints that t is
the nearer of the two roots and the point lies exactly on the sphere
surface (distance from the point to the center equals the radius, hence
within any positive epsilon). -/
theorem SphereLineIntersection_spec (s : geom.Sphere) (l : Line) :
    ((SphereLineIntersection s l).ok = false ↔ sliD s l < 0) ∧
    (sliD s l < 0 →
      (SphereLineIntersection s l).p = Origin ∧
      (SphereLineIntersection s l).t = maxFloat64) ∧
    (0 ≤ sliD s l →
      (SphereLineIntersection s l).ok = true ∧
      (SphereLineIntersection s l).t =
        (-(sliB s l) - Real.sqrt (sliD s l)) / (2 * sliA l) ∧
      (SphereLineIntersection s l).p =
        linePointAt l (SphereLineIntersection s l).t) ∧
    (0 ≤ sliD s l → 0 ≤ s.radius → l.p0 ≠ l.p1 →
      (SphereLineIntersection s l).t ≤
        (-(sliB s l) + Real.sqrt (sliD s l)) / (2 * sliA l) ∧
      (MakeVector (SphereLineIntersection s l).p s.center).Module = s.radius) := by
  by_cases hd : sliD s l < 0
  · refine ⟨by simp [SphereLineIntersection, hd], fun _ => ?_,
      fun h0 => absurd hd (not_lt.mpr h0), fun h0 => absurd hd (not_lt.mpr h0)⟩
    constructor <;> simp [SphereLineIntersection, hd]
  · have h0 : 0 ≤ sliD s l := not_lt.mp hd
    refine ⟨by simp [SphereLineIntersection, hd], fun h => absurd h hd,
      fun _ => ?_, fun _ hr hl => ?_⟩
    · refine ⟨by simp [SphereLineIntersection, hd],
        by simp [SphereLineIntersection, hd], ?_⟩
      simp [SphereLineIntersection, hd, linePointAt]
    · refine ⟨?_, sli_on_sphere s l h0 hr hl⟩
      have ht : (SphereLineIntersection s l).t =
          (-(sliB s l) - Real.sqrt (sliD s l)) / (2 * sliA l) := by
        simp [SphereLineIntersection, hd]
      rw [ht]
      have h2a : (0:ℝ) < 2 * sliA l := by linarith [sliA_pos l hl]
      have hs := Real.sqrt_nonneg (sliD s l)
      exact (div_le_div_iff_of_pos_right h2a).mpr (by linarith)

/-- Witness for SphereLineIntersection_spec at the sphere centered (3,0,0)
with radius 1 and the line from the origin towards (1,0,0): discriminant 4,
hit found, hit point at distance exactly 1 from the center. -/
theorem SphereLineIntersection_spec_witness :
    (0 ≤ sliD exSphere exLine ∧ 0 ≤ exSphere.radius ∧ exLine.p0 ≠ exLine.p1) ∧
    (SphereLineIntersection exSphere exLine).ok = true ∧
    (MakeVector (SphereLineIntersection exSphere exLine).p exSphere.center).Module
      = exSphere.radius := by
  have hd : (0:ℝ) ≤ sliD exSphere exLine := by
    norm_num [sliD, sliA, sliB, sliC, exSphere, exLine]
  have hr : (0:ℝ) ≤ exSphere.radius := by norm_num [exSphere]
  have hl : exLine.p0 ≠ exLine.p1 := by
    norm_num [exLine, Point.mk.injEq]
  have h := SphereLineIntersection_spec exSphere exLine
  exact ⟨⟨hd, hr, hl⟩, (h.2.2.1 hd).1, (h.2.2.2 hd hr hl).2⟩

/-- Counterexample to C1 as stated: for the degenerate line whose endpoints
both sit at the center of the unit sphere the discriminant is 0, so
found=true, but the returned point is at distance 0 from the center (the Go
code divides 0 by 0 at this input), not within epsilon 0.01 of the
radius 1. -/
theorem SphereLineIntersection_claim_counterexample :
    (SphereLineIntersection unitSphere degLine).ok = true ∧
    ¬ FloatsEqual
        ((MakeVector (SphereLineIntersection unitSphere degLine).p
          unitSphere.center).Module)
        unitSphere.radius (1 / 100) := by
  have hd : sliD unitSphere degLine = 0 := by
    norm_num [sliD, sliA, sliB, sliC, unitSphere, degLine]
  have hnot : ¬ sliD unitSphere degLine < 0 := by rw [hd]; norm_num
  constructor
  · simp [SphereLineIntersection, hnot]
  · simp only [SphereLineIntersection, hnot, if_false, if_neg, not_false_iff]
    simp [unitSphere, degLine, MakeVector, Vector.Module, FloatsEqual]
    norm_num

lemma Module_mk (a b c : ℝ) :
    Vector.Module ⟨a, b, c⟩ = Real.sqrt (a * a + b * b + c * c) := rfl

lemma Module_pos_of_ne (p q : Point) (h : p ≠ q) : 0 < (MakeVector p q).Module := by
  unfold MakeVector
  rw [Module_mk]
  apply Real.sqrt_pos.mpr
  have hsum : (0:ℝ) ≤ (p.x - q.x) * (p.x - q.x) + (p.y - q.y) * (p.y - q.y) +
      (p.z - q.z) * (p.z - q.z) := by
    nlinarith [sq_nonneg (p.x - q.x), sq_nonneg (p.y - q.y), sq_nonneg (p.z - q.z)]
  rcases lt_or_eq_of_le hsum with h' | h'
  · exact h'
  · exfalso
    apply h
    have hx : p.x - q.x = 0 := by nlinarith
    have hy : p.y - q.y = 0 := by nlinarith
    have hz : p.z - q.z = 0 := by nlinarith
    ext <;> linarith

lemma UnitVector_module_one (v : Vector) (h : 0 < v.Module) :
    v.UnitVector.Module = 1 := by
  have hnn : 0 ≤ v.x * v.x + v.y * v.y + v.z * v.z := by
    nlinarith [sq_nonneg v.x, sq_nonneg v.y, sq_nonneg v.z]
  have hm2 : v.Module * v.Module = v.x * v.x + v.y * v.y + v.z * v.z :=
    Real.mul_self_sqrt hnn
  have hm0 : v.Module ≠ 0 := ne_of_gt h
  show Vector.Module ⟨v.x / v.Module, v.y / v.Module, v.z / v.Module⟩ = 1
  rw [Module_mk]
  rw [show v.x / v.Module * (v.x / v.Module) + v.y / v.Module * (v.y / v.Module) +
      v.z / v.Module * (v.z / v.Module) = 1 from by
    field_simp
    linear_combination -hm2]
  exact Real.sqrt_one

/-- C4 (amended): for every sphere and every point distinct from its center,
NormalVectorAt returns a unit vector (module exactly 1, hence 1 within any
epsilon), and that vector is a positive multiple of the vector from the
center towards the point: the normal points outward, away from the center,
not inward. -/
theorem NormalVectorAt_unit_outward (s : geom.Sphere) (p : Point)
    (h : p ≠ s.center) :
    (s.NormalVectorAt p).Module = 1 ∧
    ∃ k : ℝ, 0 < k ∧
      s.NormalVectorAt p =
        ⟨k * (p.x - s.center.x), k * (p.y - s.center.y), k * (p.z - s.center.z)⟩ := by
  have hm := Module_pos_of_ne p s.center h
  have hm0 : (MakeVector p s.center).Module ≠ 0 := ne_of_gt hm
  constructor
  · exact UnitVector_module_one (MakeVector p s.center) hm
  · refine ⟨1 / (MakeVector p s.center).Module, by positivity, ?_⟩
    unfold Sphere.NormalVectorAt
    ext <;> simp only [Vector.UnitVector, MakeVector] <;> ring

/-- Witness for NormalVectorAt_unit_outward at the repository's own test
case: sphere centered (1,1,1) of radius 4 and surface point (5,1,1). -/
theorem NormalVectorAt_unit_outward_witness :
    ((⟨5, 1, 1⟩ : Point) ≠ (⟨1, 1, 1⟩ : Point)) ∧
    (Sphere.NormalVectorAt ⟨⟨1, 1, 1⟩, 4⟩ ⟨5, 1, 1⟩).Module = 1 := by
  have hne : (⟨5, 1, 1⟩ : Point) ≠ (⟨⟨1, 1, 1⟩, 4⟩ : geom.Sphere).center := by
    intro h
    have h2 := congrArg Point.x h
    norm_num at h2
  exact ⟨hne, (NormalVectorAt_unit_outward ⟨⟨1, 1, 1⟩, 4⟩ ⟨5, 1, 1⟩ hne).1⟩

/-- Counterexample to C4 as stated: at the sphere centered (1,1,1) with
radius 4 and the surface point (5,1,1) — the repository's own test case,
which expects (1,0,0) — the computed normal equals (1,0,0), and no positive
multiple of the inward direction (center - point) = (-4,0,0) equals
(1,0,0): the normal points away from the center, not towards it. -/
theorem NormalVectorAt_not_inward_counterexample :
    Sphere.NormalVectorAt ⟨⟨1, 1, 1⟩, 4⟩ ⟨5, 1, 1⟩ = ⟨1, 0, 0⟩ ∧
    ¬ ∃ k : ℝ, 0 < k ∧
      Sphere.NormalVectorAt ⟨⟨1, 1, 1⟩, 4⟩ ⟨5, 1, 1⟩ =
        ⟨k * ((1:ℝ) - 5), k * ((1:ℝ) - 1), k * ((1:ℝ) - 1)⟩ := by
  have h16 : Real.sqrt 16 = 4 := by
    rw [show (16:ℝ) = 4 ^ 2 by norm_num]
    exact Real.sqrt_sq (by norm_num)
  have hn : Sphere.NormalVectorAt ⟨⟨1, 1, 1⟩, 4⟩ ⟨5, 1, 1⟩ = ⟨1, 0, 0⟩ := by
    unfold Sphere.NormalVectorAt Vector.UnitVector MakeVector Vector.Module
    norm_num
    rw [h16]
    norm_num
  refine ⟨hn, ?_⟩
  rintro ⟨k, hk, he⟩
  rw [hn] at he
  have h1 : (1:ℝ) = k * (1 - 5) := congrArg Vector.x he
  linarith


lemma toNat_floor_le (x : ℝ) (hx : 0 ≤ x) : ((⌊x⌋.toNat : ℝ)) ≤ x := by
  have h0 : (0:ℤ) ≤ ⌊x⌋ := Int.floor_nonneg.mpr hx
  rw [show ((⌊x⌋.toNat : ℝ)) = ((⌊x⌋ : ℝ)) from by exact_mod_cast Int.toNat_of_nonneg h0]
  exact Int.floor_le x

lemma lt_toNat_floor_add_one (x : ℝ) (hx : 0 ≤ x) : x < (⌊x⌋.toNat : ℝ) + 1 := by
  have h0 : (0:ℤ) ≤ ⌊x⌋ := Int.floor_nonneg.mpr hx
  rw [show ((⌊x⌋.toNat : ℝ)) = ((⌊x⌋ : ℝ)) from by exact_mod_cast Int.toNat_of_nonneg h0]
  exact Int.lt_floor_add_one x

/-- C9: toRGBA scales each channel in [0,1] by 255 and truncates (floor, not
rounding): each produced 8-bit value n satisfies n ≤ channel*255 < n+1, the
alpha channel is always 255, and the color (0.2, 0.4, 0.6) converts exactly
to (51, 102, 153). -/
theorem toRGBA_floor_spec (c : Color)
    (hr : 0 ≤ c.r) (hg : 0 ≤ c.g) (hb : 0 ≤ c.b) :
    (((c.toRGBA).r : ℝ) ≤ c.r * 255 ∧ c.r * 255 < ((c.toRGBA).r : ℝ) + 1) ∧
    (((c.toRGBA).g : ℝ) ≤ c.g * 255 ∧ c.g * 255 < ((c.toRGBA).g : ℝ) + 1) ∧
    (((c.toRGBA).b : ℝ) ≤ c.b * 255 ∧ c.b * 255 < ((c.toRGBA).b : ℝ) + 1) ∧
    (c.toRGBA).a = 255 ∧
    Color.toRGBA ⟨0.2, 0.4, 0.6⟩ = ⟨51, 102, 153, 255⟩ := by
  have hr' : (0:ℝ) ≤ c.r * 255 := by positivity
  have hg' : (0:ℝ) ≤ c.g * 255 := by positivity
  have hb' : (0:ℝ) ≤ c.b * 255 := by positivity
  refine ⟨⟨toNat_floor_le _ hr', lt_toNat_floor_add_one _ hr'⟩,
    ⟨toNat_floor_le _ hg', lt_toNat_floor_add_one _ hg'⟩,
    ⟨toNat_floor_le _ hb', lt_toNat_floor_add_one _ hb'⟩, rfl, ?_⟩
  have f1 : (⌊(0.2:ℝ) * 255⌋ : ℤ) = 51 := by
    rw [show (0.2:ℝ) * 255 = ((51:ℤ):ℝ) by norm_num]
    exact Int.floor_intCast 51
  have f2 : (⌊(0.4:ℝ) * 255⌋ : ℤ) = 102 := by
    rw [show (0.4:ℝ) * 255 = ((102:ℤ):ℝ) by norm_num]
    exact Int.floor_intCast 102
  have f3 : (⌊(0.6:ℝ) * 255⌋ : ℤ) = 153 := by
    rw [show (0.6:ℝ) * 255 = ((153:ℤ):ℝ) by norm_num]
    exact Int.floor_intCast 153
  show RGBA.mk (⌊(0.2:ℝ) * 255⌋.toNat) (⌊(0.4:ℝ) * 255⌋.toNat)
      (⌊(0.6:ℝ) * 255⌋.toNat) 255 = ⟨51, 102, 153, 255⟩
  rw [f1, f2, f3]
  rfl

/-- Witness for toRGBA_floor_spec at the color (0.2, 0.4, 0.6). -/
theorem toRGBA_floor_spec_witness :
    ((0:ℝ) ≤ 0.2 ∧ (0:ℝ) ≤ 0.4 ∧ (0:ℝ) ≤ 0.6) ∧
    Color.toRGBA ⟨0.2, 0.4, 0.6⟩ = ⟨51, 102, 153, 255⟩ := by
  have h := toRGBA_floor_spec ⟨0.2, 0.4, 0.6⟩ (by norm_num) (by norm_num) (by norm_num)
  exact ⟨⟨by norm_num, by norm_num, by norm_num⟩, h.2.2.2.2⟩

lemma castLoop_spec (ray : geom.Line) (l : List raytracer.Sphere) :
    ∀ (i0 : ℕ) (st : CastState),
    (castLoop ray l i0 st = st ∧
      ∀ k, k < l.length → hits ray l k → st.tmin ≤ (hitRes ray l k).t) ∨
    (∃ k, k < l.length ∧ hits ray l k ∧ (hitRes ray l k).t < st.tmin ∧
      castLoop ray l i0 st =
        ⟨(hitRes ray l k).t, (hitRes ray l k).p, some (i0 + k)⟩ ∧
      (∀ k', k' < l.length → hits ray l k' →
        (hitRes ray l k).t ≤ (hitRes ray l k').t) ∧
      (∀ k', k' < k → hits ray l k' →
        (hitRes ray l k).t < (hitRes ray l k').t)) := by
  induction l with
  | nil =>
    intro i0 st
    exact Or.inl ⟨rfl, fun k hk => absurd hk (Nat.not_lt_zero k)⟩
  | cons o rest ih =>
    intro i0 st
    have hz : hitRes ray (o :: rest) 0 = geom.SphereLineIntersection o.sphere ray := by
      simp [hitRes]
    have hsucc : ∀ k : ℕ, hitRes ray (o :: rest) (k + 1) = hitRes ray rest k := by
      intro k; simp [hitRes]
    have hitsucc : ∀ k : ℕ, hits ray (o :: rest) (k + 1) ↔ hits ray rest k := by
      intro k; unfold hits; rw [hsucc]
    have hitzero : hits ray (o :: rest) 0 ↔
        (geom.SphereLineIntersection o.sphere ray).ok = true := by
      unfold hits; rw [hz]
    by_cases hc : (geom.SphereLineIntersection o.sphere ray).ok = true ∧
        (geom.SphereLineIntersection o.sphere ray).t < st.tmin
    · have hstep : castLoop ray (o :: rest) i0 st =
          castLoop ray rest (i0 + 1)
            ⟨(geom.SphereLineIntersection o.sphere ray).t,
              (geom.SphereLineIntersection o.sphere ray).p, some i0⟩ := by
        simp only [castLoop]
        rw [if_pos hc]
      rcases ih (i0 + 1) ⟨(geom.SphereLineIntersection o.sphere ray).t,
          (geom.SphereLineIntersection o.sphere ray).p, some i0⟩ with
        ⟨heq, hmin⟩ | ⟨k, hk, hok, hlt, heq, hmin, hfirst⟩
      · right
        refine ⟨0, Nat.succ_pos _, hitzero.mpr hc.1, ?_, ?_, ?_, ?_⟩
        · rw [hz]; exact hc.2
        · rw [hstep, heq, hz]
          norm_num
        · intro k' hk' hh
          match k' with
          | 0 => rw [hz]
          | (k' + 1) =>
            rw [hz, hsucc k']
            have := hmin k' (by simpa using hk') ((hitsucc k').mp hh)
            simpa using this
        · intro k' hk' hh
          omega
      · right
        have hlt' : (hitRes ray rest k).t <
            (geom.SphereLineIntersection o.sphere ray).t := by simpa using hlt
        refine ⟨k + 1, by simp; omega, (hitsucc k).mpr hok, ?_, ?_, ?_, ?_⟩
        · rw [hsucc k]
          linarith [hc.2]
        · rw [hstep, heq, hsucc k]
          have : i0 + 1 + k = i0 + (k + 1) := by omega
          rw [this]
        · intro k' hk' hh
          match k' with
          | 0 =>
            rw [hz, hsucc k]
            exact le_of_lt hlt'
          | (k' + 1) =>
            rw [hsucc k, hsucc k']
            exact hmin k' (by simpa using hk') ((hitsucc k').mp hh)
        · intro k' hk' hh
          match k' with
          | 0 =>
            rw [hz, hsucc k]
            exact hlt'
          | (k' + 1) =>
            rw [hsucc k, hsucc k']
            exact hfirst k' (by omega) ((hitsucc k').mp hh)
    · have hstep : castLoop ray (o :: rest) i0 st = castLoop ray rest (i0 + 1) st := by
        simp only [castLoop]
        rw [if_neg hc]
      have hno : (geom.SphereLineIntersection o.sphere ray).ok = true →
          st.tmin ≤ (geom.SphereLineIntersection o.sphere ray).t := by
        intro hok
        by_contra hlt
        exact hc ⟨hok, not_le.mp hlt⟩
      rcases ih (i0 + 1) st with ⟨heq, hmin⟩ | ⟨k, hk, hok, hlt, heq, hmin, hfirst⟩
      · left
        refine ⟨by rw [hstep, heq], ?_⟩
        intro k hk hh
        match k with
        | 0 => rw [hz]; exact hno (hitzero.mp hh)
        | (k + 1) =>
          rw [hsucc k]
          exact hmin k (by simpa using hk) ((hitsucc k).mp hh)
      · right
        refine ⟨k + 1, by simp; omega, (hitsucc k).mpr hok,
          by rw [hsucc k]; exact hlt, ?_, ?_, ?_⟩
        · rw [hstep, heq, hsucc k]
          have : i0 + 1 + k = i0 + (k + 1) := by omega
          rw [this]
        · intro k' hk' hh
          match k' with
          | 0 =>
            rw [hz, hsucc k]
            exact le_trans (le_of_lt hlt) (hno (hitzero.mp hh))
          | (k' + 1) =>
            rw [hsucc k, hsucc k']
            exact hmin k' (by simpa using hk') ((hitsucc k').mp hh)
        · intro k' hk' hh
          match k' with
          | 0 =>
            rw [hz, hsucc k]
            exact lt_of_lt_of_le hlt (hno (hitzero.mp hh))
          | (k' + 1) =>
            rw [hsucc k, hsucc k']
            exact hfirst k' (by omega) ((hitsucc k').mp hh)

lemma hitRes_cons_zero (ray : geom.Line) (o : raytracer.Sphere)
    (rest : List raytracer.Sphere) :
    hitRes ray (o :: rest) 0 = geom.SphereLineIntersection o.sphere ray := by
  simp [hitRes]

lemma hitRes_cons_succ (ray : geom.Line) (o : raytracer.Sphere)
    (rest : List raytracer.Sphere) (k : ℕ) :
    hitRes ray (o :: rest) (k + 1) = hitRes ray rest k := by
  simp [hitRes]

lemma rayHitsObjectList_iff (ray : geom.Line) (l : List raytracer.Sphere) :
    rayHitsObjectList ray l = true ↔ ∃ k, k < l.length ∧ hits ray l k := by
  induction l with
  | nil =>
    simp [rayHitsObjectList]
  | cons o rest ih =>
    unfold rayHitsObjectList
    by_cases hc : (geom.SphereLineIntersection o.sphere ray).ok = true
    · rw [if_pos hc]
      constructor
      · intro _
        refine ⟨0, Nat.succ_pos _, ?_⟩
        unfold hits
        rw [hitRes_cons_zero]
        exact hc
      · intro _
        rfl
    · rw [if_neg hc, ih]
      constructor
      · rintro ⟨k, hk, hh⟩
        exact ⟨k + 1, by simpa using Nat.succ_lt_succ hk,
          by unfold hits; rw [hitRes_cons_succ]; exact hh⟩
      · rintro ⟨k, hk, hh⟩
        match k with
        | 0 =>
          exfalso
          apply hc
          have := hh
          unfold hits at this
          rw [hitRes_cons_zero] at this
          exact this
        | (k + 1) =>
          refine ⟨k, by simpa using hk, ?_⟩
          unfold hits at hh ⊢
          rw [hitRes_cons_succ] at hh
          exact hh

lemma castRay_characterization (s : Scene) (ray : geom.Line) :
    (s.castRay ray = none ↔
      ∀ k, k < s.objects.length → hits ray s.objects k →
        geom.maxFloat64 ≤ (hitRes ray s.objects k).t) ∧
    (∀ i p, s.castRay ray = some (i, p) →
      i < s.objects.length ∧ hits ray s.objects i ∧
      (hitRes ray s.objects i).t < geom.maxFloat64 ∧
      p = (hitRes ray s.objects i).p ∧
      (∀ k, k < s.objects.length → hits ray s.objects k →
        (hitRes ray s.objects i).t ≤ (hitRes ray s.objects k).t) ∧
      (∀ k, k < i → hits ray s.objects k →
        (hitRes ray s.objects i).t < (hitRes ray s.objects k).t)) := by
  rcases castLoop_spec ray s.objects 0 ⟨geom.maxFloat64, geom.Origin, none⟩ with
    ⟨heq, hmin⟩ | ⟨k, hk, hok, hlt, heq, hmin, hfirst⟩
  · have hnone : s.castRay ray = none := by
      unfold Scene.castRay
      rw [heq]
    constructor
    · constructor
      · intro _ k hk hh
        simpa using hmin k hk hh
      · intro _
        exact hnone
    · intro i p hip
      rw [hnone] at hip
      exact absurd hip (by simp)
  · have hlt' : (hitRes ray s.objects k).t < geom.maxFloat64 := by simpa using hlt
    have hsome : s.castRay ray = some (k, (hitRes ray s.objects k).p) := by
      unfold Scene.castRay
      rw [heq]
      norm_num
    constructor
    · constructor
      · intro hn
        rw [hsome] at hn
        exact absurd hn (by simp)
      · intro hall
        exact absurd (hall k hk hok) (by linarith)
    · intro i p hip
      rw [hsome] at hip
      simp only [Option.some.injEq, Prod.mk.injEq] at hip
      obtain ⟨hik, hpp⟩ := hip
      subst hik
      exact ⟨hk, hok, hlt', hpp.symm, hmin, hfirst⟩

lemma sqrt_four : Real.sqrt 4 = 2 := by
  rw [show (4:ℝ) = 2 ^ 2 by norm_num]
  exact Real.sqrt_sq (by norm_num)

lemma two_lt_max : (2:ℝ) < geom.maxFloat64 := by
  unfold geom.maxFloat64
  norm_num

lemma exSLI_D : sliD exSphere exLine = 4 := by
  norm_num [sliD, sliA, sliB, sliC, exSphere, exLine]

lemma exSLI_ok : (geom.SphereLineIntersection exSphere exLine).ok = true := by
  have hnot : ¬ sliD exSphere exLine < 0 := by rw [exSLI_D]; norm_num
  simp [geom.SphereLineIntersection, hnot]

lemma exSLI_t : (geom.SphereLineIntersection exSphere exLine).t = 2 := by
  have hnot : ¬ sliD exSphere exLine < 0 := by rw [exSLI_D]; norm_num
  simp only [geom.SphereLineIntersection, hnot, if_neg, not_false_iff, if_false]
  rw [exSLI_D, sqrt_four]
  norm_num [sliB, sliA, exSphere, exLine]

lemma exScene_hitRes : hitRes exLine exScene.objects 0 =
    geom.SphereLineIntersection exSphere exLine := by
  simp [hitRes, exScene, exObject]

lemma exScene_castLoop :
    castLoop exLine exScene.objects 0 ⟨geom.maxFloat64, geom.Origin, none⟩ =
      ⟨(geom.SphereLineIntersection exSphere exLine).t,
        (geom.SphereLineIntersection exSphere exLine).p, some 0⟩ := by
  have hcond : (geom.SphereLineIntersection exObject.sphere exLine).ok = true ∧
      (geom.SphereLineIntersection exObject.sphere exLine).t < geom.maxFloat64 := by
    constructor
    · exact exSLI_ok
    · show (geom.SphereLineIntersection exSphere exLine).t < geom.maxFloat64
      rw [exSLI_t]
      exact two_lt_max
  show castLoop exLine [exObject] 0 _ = _
  simp only [castLoop]
  rw [if_pos hcond]
  rfl

lemma exScene_castRay : Scene.castRay exScene exLine =
    some (0, (geom.SphereLineIntersection exSphere exLine).p) := by
  unfold Scene.castRay
  rw [exScene_castLoop]

lemma bigSLI_D : sliD bigSphere.sphere exLine = 4 := by
  simp only [sliD, sliA, sliB, sliC, bigSphere, exLine]
  ring

lemma bigSLI_ok : (geom.SphereLineIntersection bigSphere.sphere exLine).ok = true := by
  have hnot : ¬ sliD bigSphere.sphere exLine < 0 := by rw [bigSLI_D]; norm_num
  simp [geom.SphereLineIntersection, hnot]

lemma bigSLI_t : (geom.SphereLineIntersection bigSphere.sphere exLine).t =
    geom.maxFloat64 := by
  have hnot : ¬ sliD bigSphere.sphere exLine < 0 := by rw [bigSLI_D]; norm_num
  simp only [geom.SphereLineIntersection, hnot, if_neg, not_false_iff, if_false]
  rw [bigSLI_D, sqrt_four]
  simp only [sliB, sliA, bigSphere, exLine]
  ring_nf

lemma bigScene_castRay : Scene.castRay bigScene exLine = none := by
  unfold Scene.castRay
  have hloop : castLoop exLine bigScene.objects 0 ⟨geom.maxFloat64, geom.Origin, none⟩ =
      ⟨geom.maxFloat64, geom.Origin, none⟩ := by
    show castLoop exLine [bigSphere] 0 _ = _
    simp only [castLoop]
    rw [if_neg]
    rintro ⟨-, hlt⟩
    rw [bigSLI_t] at hlt
    exact lt_irrefl _ hlt
  rw [hloop]

/-- C2 (amended): castRay performs a linear scan tracking the strictly
smallest intersection parameter t seen so far, starting from the sentinel
minimum MaxFloat64, so ties on equal minimal t go to the earlier object
(strict < comparison, not <=); it returns the index of the object achieving
that minimum together with its hit point, and it returns none exactly when
no object has a successful intersection with t strictly below the sentinel
— in particular none when no object intersects, but, contrary to the claim
as stated, also none in the corner case where every successful intersection
has t at or above MaxFloat64. -/
theorem castRay_min_spec (s : Scene) (ray : geom.Line) :
    (s.castRay ray = none ↔
      ∀ k, k < s.objects.length → hits ray s.objects k →
        geom.maxFloat64 ≤ (hitRes ray s.objects k).t) ∧
    (∀ i p, s.castRay ray = some (i, p) →
      i < s.objects.length ∧ hits ray s.objects i ∧
      (hitRes ray s.objects i).t < geom.maxFloat64 ∧
      p = (hitRes ray s.objects i).p ∧
      (∀ k, k < s.objects.length → hits ray s.objects k →
        (hitRes ray s.objects i).t ≤ (hitRes ray s.objects k).t) ∧
      (∀ k, k < i → hits ray s.objects k →
        (hitRes ray s.objects i).t < (hitRes ray s.objects k).t)) :=
  castRay_characterization s ray

/-- Witness for castRay_min_spec: on the one-object example scene the scan
returns object 0 with its intersection point, which castRay_min_spec then
certifies as a hit that is minimal among all objects. -/
theorem castRay_min_spec_witness :
    Scene.castRay exScene exLine =
      some (0, (geom.SphereLineIntersection exSphere exLine).p) ∧
    hits exLine exScene.objects 0 ∧
    (hitRes exLine exScene.objects 0).t < geom.maxFloat64 := by
  have h := (castRay_min_spec exScene exLine).2 0
    (geom.SphereLineIntersection exSphere exLine).p exScene_castRay
  exact ⟨exScene_castRay, h.2.1, h.2.2.1⟩

/-- Counterexample to C2 as stated: with a single sphere centered at
x = MaxFloat64 + 1 of radius 1 and the ray from the origin towards (1,0,0),
the intersection succeeds (found=true, at t exactly MaxFloat64), yet
castRay returns none, because the parameter is not strictly below the
MaxFloat64 value the minimum scan starts from: an object intersects the ray
but no object is returned. -/
theorem castRay_claim_counterexample :
    (geom.SphereLineIntersection bigSphere.sphere exLine).ok = true ∧
    Scene.castRay bigScene exLine = none :=
  ⟨bigSLI_ok, bigScene_castRay⟩

/-- C10 (amended): rayHitsObject is true exactly when some object's
intersection test succeeds, and castRay returning an object always implies
rayHitsObject is true; under the proviso that every successful intersection
parameter is strictly below the MaxFloat64 sentinel (which fails only in
the horizon corner case of the counterexample) the two agree exactly:
rayHitsObject returns true if and only if castRay returns an object. -/
theorem rayHitsObject_iff_castRay (s : Scene) (ray : geom.Line)
    (hbelow : ∀ k, k < s.objects.length → hits ray s.objects k →
      (hitRes ray s.objects k).t < geom.maxFloat64) :
    (s.rayHitsObject ray = true ↔ s.castRay ray ≠ none) := by
  have hch := castRay_characterization s ray
  have hex : s.rayHitsObject ray = true ↔
      ∃ k, k < s.objects.length ∧ hits ray s.objects k :=
    rayHitsObjectList_iff ray s.objects
  constructor
  · intro hh hn
    rcases hex.mp hh with ⟨k, hk, hkh⟩
    have h1 := hch.1.mp hn k hk hkh
    have h2 := hbelow k hk hkh
    linarith
  · intro hn
    match hcr : s.castRay ray with
    | none => exact absurd hcr hn
    | some (i, p) =>
      have h2 := hch.2 i p hcr
      exact hex.mpr ⟨i, h2.1, h2.2.1⟩

/-- Witness for rayHitsObject_iff_castRay on the one-object example scene,
where the only intersection parameter is 2, far below the sentinel. -/
theorem rayHitsObject_iff_castRay_witness :
    (Scene.rayHitsObject exScene exLine = true ↔
      Scene.castRay exScene exLine ≠ none) := by
  apply rayHitsObject_iff_castRay
  intro k hk _
  have hk0 : k = 0 := by
    have : k < 1 := by simpa [exScene] using hk
    omega
  subst hk0
  rw [exScene_hitRes, exSLI_t]
  exact two_lt_max

/-- Counterexample to C10 as stated: for the scene with the single sphere
centered at x = MaxFloat64 + 1, the shadow-existence test rayHitsObject
reports a hit while the nearest-hit search castRay returns none, so the two
disagree on whether any object is intersected. -/
theorem rayHitsObject_castRay_counterexample :
    Scene.rayHitsObject bigScene exLine = true ∧
    Scene.castRay bigScene exLine = none := by
  refine ⟨?_, bigScene_castRay⟩
  show rayHitsObjectList exLine [bigSphere] = true
  unfold rayHitsObjectList
  rw [if_pos bigSLI_ok]

/-- C3: renderPixel yields exactly one of four colors, by case analysis on
the primary-ray hit and the shadow tests: a hit whose shadow ray cast from
the light to the hit point finds a nearest object different from the hit
object gets the object's own color scaled channelwise by (1-kd); an
unshadowed hit gets the diffuse+ambient blend factor*kd*channel +
factor*(1-kd) on each channel, where factor is the dot product of the unit
light vector (hit point towards the light) with the surface normal, clamped
to at least 0; a miss whose secondary ray from the far-plane point to the
light hits some object gets the background color halved; and any other miss
gets the background unchanged.  The (1-kd)-scaling and the halving remain
two distinct shadow formulas. -/
theorem renderPixelColor_cases (s : Scene) (x y : ℝ) :
    (∀ i p, s.castRay (s.primaryRay x y) = some (i, p) →
      ((∀ j q, s.castRay ⟨s.light, p⟩ = some (j, q) → j ≠ i →
        s.renderPixelColor x y =
          ⟨(1 - s.kd) * (s.objects.getD i dummyObject).color.r,
            (1 - s.kd) * (s.objects.getD i dummyObject).color.g,
            (1 - s.kd) * (s.objects.getD i dummyObject).color.b⟩) ∧
      ((s.castRay ⟨s.light, p⟩ = none ∨ (∃ q, s.castRay ⟨s.light, p⟩ = some (i, q))) →
        ∃ f : ℝ,
          f = (if geom.DotProduct (geom.MakeVector s.light p).UnitVector
                  ((s.objects.getD i dummyObject).sphere.NormalVectorAt p) < 0
               then 0
               else geom.DotProduct (geom.MakeVector s.light p).UnitVector
                  ((s.objects.getD i dummyObject).sphere.NormalVectorAt p)) ∧
          s.renderPixelColor x y =
            ⟨f * s.kd * (s.objects.getD i dummyObject).color.r + f * (1 - s.kd),
              f * s.kd * (s.objects.getD i dummyObject).color.g + f * (1 - s.kd),
              f * s.kd * (s.objects.getD i dummyObject).color.b + f * (1 - s.kd)⟩))) ∧
    (s.castRay (s.primaryRay x y) = none →
      (s.rayHitsObject ⟨⟨s.xfar x, s.yfar y, s.viewFrustum.far.z⟩, s.light⟩ = true →
        s.renderPixelColor x y = ⟨s.bg.r / 2, s.bg.g / 2, s.bg.b / 2⟩) ∧
      (s.rayHitsObject ⟨⟨s.xfar x, s.yfar y, s.viewFrustum.far.z⟩, s.light⟩ = false →
        s.renderPixelColor x y = s.bg)) := by
  constructor
  · intro i p hip
    constructor
    · intro j q hjq hji
      simp only [Scene.renderPixelColor]
      rw [hip]
      dsimp only
      rw [hjq]
      dsimp only
      rw [if_pos hji]
    · intro hs
      refine ⟨_, rfl, ?_⟩
      simp only [Scene.renderPixelColor]
      rw [hip]
      dsimp only
      rcases hs with hn | ⟨q, hq⟩
      · rw [hn]
        dsimp only
        unfold Scene.computeObjectColorAt diffuseShading
        dsimp only
      · rw [hq]
        dsimp only
        rw [if_neg (fun h => h rfl)]
        unfold Scene.computeObjectColorAt diffuseShading
        dsimp only
  · intro hn
    constructor
    · intro hh
      simp only [Scene.renderPixelColor]
      rw [hn]
      dsimp only
      rw [hh]
      rw [if_pos rfl]
    · intro hh
      simp only [Scene.renderPixelColor]
      rw [hn]
      dsimp only
      rw [hh]
      rw [if_neg (by simp)]

lemma vScene_castRay (ray : geom.Line) : Scene.castRay vScene ray = none := rfl

lemma vScene_rayHits (ray : geom.Line) : Scene.rayHitsObject vScene ray = false := rfl

/-- Witness for renderPixelColor_cases: on the valid empty scene the primary
ray misses and the secondary ray hits nothing, so the pixel color is the
background unchanged. -/
theorem renderPixelColor_cases_witness :
    Scene.renderPixelColor vScene 0 0 = vScene.bg :=
  ((renderPixelColor_cases vScene 0 0).2 (vScene_castRay _)).2 (vScene_rayHits _)

lemma colorValidate_none_iff (c : Color) : c.Validate = none ↔ ColorValid c := by
  unfold Color.Validate ColorValid
  split_ifs with h
  · simpa using h
  · simpa using h

lemma planeValidate_none_iff (p : geom.Plane2d) :
    _plane2dValidate p = none ↔ PlaneValid p := by
  unfold _plane2dValidate PlaneValid
  split_ifs with h
  · simp only [reduceCtorEq, false_iff]
    rintro ⟨h1, h2⟩
    rcases h with h | h <;> linarith
  · push_neg at h
    simp only [true_iff]
    exact ⟨h.1, h.2⟩

lemma objValidate_none_iff (o : raytracer.Sphere) : o.Validate = none ↔ ObjectValid o := by
  unfold Sphere.Validate _geomSphereValidate
  by_cases h : o.sphere.radius < 0
  · rw [if_pos h]
    simp only [reduceCtorEq, false_iff]
    rintro ⟨h1, -⟩
    linarith
  · rw [if_neg h]
    cases hc : o.color.Validate with
    | none =>
      constructor
      · intro _
        exact ⟨not_lt.mp h, (colorValidate_none_iff o.color).mp hc⟩
      · intro _
        rfl
    | some e =>
      simp only [reduceCtorEq, false_iff]
      rintro ⟨-, hcv⟩
      have h2 := (colorValidate_none_iff o.color).mpr hcv
      rw [h2] at hc
      exact absurd hc (by simp)

lemma validateObjects_none_iff (l : List raytracer.Sphere) :
    validateObjects l = none ↔ ∀ o ∈ l, ObjectValid o := by
  induction l with
  | nil => simp [validateObjects]
  | cons o rest ih =>
    unfold validateObjects
    cases hv : o.Validate with
    | some e =>
      simp only [reduceCtorEq, false_iff]
      intro hall
      have h2 := (objValidate_none_iff o).mpr (hall o (by simp))
      rw [h2] at hv
      exact absurd hv (by simp)
    | none =>
      rw [ih]
      constructor
      · intro hall o' ho'
        rcases List.mem_cons.mp ho' with rfl | h'
        · exact (objValidate_none_iff o').mp hv
        · exact hall o' h'
      · intro hall o' ho'
        exact hall o' (List.mem_cons_of_mem _ ho')

lemma validateObjects_first (l : List raytracer.Sphere) :
    ∀ i, i < l.length → (∀ j, j < i → ObjectValid (l.getD j dummyObject)) →
      ¬ ObjectValid (l.getD i dummyObject) →
      ∃ e, (l.getD i dummyObject).Validate = some e ∧
        validateObjects l = some (.invalidObject e) := by
  induction l with
  | nil =>
    intro i hi
    exact absurd hi (Nat.not_lt_zero i)
  | cons o rest ih =>
    intro i hi hprev hbad
    match i with
    | 0 =>
      cases ho : o.Validate with
      | none =>
        exact absurd ((objValidate_none_iff o).mp ho) (by simpa using hbad)
      | some e =>
        refine ⟨e, by simpa using ho, ?_⟩
        unfold validateObjects
        rw [ho]
    | (i + 1) =>
      have ho : o.Validate = none :=
        (objValidate_none_iff o).mpr (by simpa using hprev 0 (Nat.succ_pos i))
      obtain ⟨e, he1, he2⟩ := ih i (by simpa using hi)
        (fun j hj => by simpa using hprev (j + 1) (by omega))
        (by simpa using hbad)
      refine ⟨e, by simpa using he1, ?_⟩
      unfold validateObjects
      rw [ho]
      exact he2

lemma frustumValidate_none_iff (f : Frustum) :
    f.Validate = none ↔ PlaneValid f.near ∧ PlaneValid f.far := by
  unfold Frustum.Validate
  cases hn : _plane2dValidate f.near with
  | some e =>
    simp only [reduceCtorEq, false_iff]
    rintro ⟨h1, -⟩
    have h2 := (planeValidate_none_iff f.near).mpr h1
    rw [h2] at hn
    exact absurd hn (by simp)
  | none =>
    cases hf : _plane2dValidate f.far with
    | some e =>
      simp only [reduceCtorEq, false_iff]
      rintro ⟨-, h1⟩
      have h2 := (planeValidate_none_iff f.far).mpr h1
      rw [h2] at hf
      exact absurd hf (by simp)
    | none =>
      simp only [true_iff]
      exact ⟨(planeValidate_none_iff f.near).mp hn,
        (planeValidate_none_iff f.far).mp hf⟩

lemma frustumValidate_near_first (f : Frustum) (h : ¬ PlaneValid f.near) :
    f.Validate = some (.invalidNearPlane (.degeneratePlane f.near)) := by
  unfold Frustum.Validate _plane2dValidate PlaneValid at *
  rw [if_pos]
  push_neg at h
  by_cases h1 : f.near.tl.x < f.near.br.x
  · exact Or.inr (h h1)
  · exact Or.inl (not_lt.mp h1)

lemma frustumValidate_far_first (f : Frustum) (hn : PlaneValid f.near)
    (h : ¬ PlaneValid f.far) :
    f.Validate = some (.invalidFarPlane (.degeneratePlane f.far)) := by
  unfold Frustum.Validate
  rw [(planeValidate_none_iff f.near).mpr hn]
  unfold _plane2dValidate PlaneValid at *
  rw [if_pos]
  push_neg at h
  by_cases h1 : f.far.tl.x < f.far.br.x
  · exact Or.inr (h h1)
  · exact Or.inl (not_lt.mp h1)

lemma sceneValidate_none_iff (s : Scene) : s.Validate = none ↔ SceneValid s := by
  unfold Scene.Validate SceneValid
  cases hobj : validateObjects s.objects with
  | some e =>
    simp only [reduceCtorEq, false_iff]
    rintro ⟨h1, -⟩
    have h2 := (validateObjects_none_iff s.objects).mpr h1
    rw [h2] at hobj
    exact absurd hobj (by simp)
  | none =>
    cases hbg : s.bg.Validate with
    | some e =>
      simp only [reduceCtorEq, false_iff]
      rintro ⟨-, h1, -⟩
      have h2 := (colorValidate_none_iff s.bg).mpr h1
      rw [h2] at hbg
      exact absurd hbg (by simp)
    | none =>
      by_cases hkd : s.kd < 0 ∨ s.kd > 1
      · rw [if_pos hkd]
        simp only [reduceCtorEq, false_iff]
        rintro ⟨-, -, ⟨hk1, hk2⟩, -⟩
        rcases hkd with h | h <;> linarith
      · rw [if_neg hkd]
        push_neg at hkd
        cases hfr : s.viewFrustum.Validate with
        | some e =>
          simp only [reduceCtorEq, false_iff]
          rintro ⟨-, -, -, hn, hf⟩
          have h2 := (frustumValidate_none_iff s.viewFrustum).mpr ⟨hn, hf⟩
          rw [h2] at hfr
          exact absurd hfr (by simp)
        | none =>
          simp only [true_iff]
          obtain ⟨hn, hf⟩ := (frustumValidate_none_iff s.viewFrustum).mp hfr
          exact ⟨(validateObjects_none_iff s.objects).mp hobj,
            (colorValidate_none_iff s.bg).mp hbg, ⟨hkd.1, hkd.2⟩, hn, hf⟩

lemma sceneValidate_objects_err (s : Scene) (e : VErr)
    (h : validateObjects s.objects = some e) : s.Validate = some e := by
  unfold Scene.Validate
  rw [h]

lemma sceneValidate_bg_err (s : Scene) (e : VErr)
    (h1 : validateObjects s.objects = none) (h2 : s.bg.Validate = some e) :
    s.Validate = some (.invalidBackground e) := by
  unfold Scene.Validate
  rw [h1, h2]

lemma sceneValidate_kd_err (s : Scene)
    (h1 : validateObjects s.objects = none) (h2 : s.bg.Validate = none)
    (h3 : s.kd < 0 ∨ s.kd > 1) : s.Validate = some (.invalidKd s.kd) := by
  unfold Scene.Validate
  rw [h1, h2, if_pos h3]

lemma sceneValidate_frustum_err (s : Scene) (e : VErr)
    (h1 : validateObjects s.objects = none) (h2 : s.bg.Validate = none)
    (h3 : ¬ (s.kd < 0 ∨ s.kd > 1)) (h4 : s.viewFrustum.Validate = some e) :
    s.Validate = some (.invalidFrustum e) := by
  unfold Scene.Validate
  rw [h1, h2, if_neg h3, h4]

lemma render_error (s : Scene) (n : ℕ) (e : VErr) (h : s.Validate = some e) :
    s.Render n = .error e := by
  unfold Scene.Render
  rw [h]

/-- C7: scene validation fails exactly when some sub-entity violates its
invariant, checking the objects in sequence order (each object's sphere
before its color), then the background color, then the diffuse coefficient,
then the near and the far frustum plane, stopping at the first violation
with an error identifying the offending sub-entity; Render propagates the
validation error unchanged (producing no image).  In particular a sphere of
radius -1, a color channel of 1.5, a diffuse coefficient of -0.1 and a
frustum plane with tl.x = br.x are all rejected. -/
theorem Validate_spec (s : Scene) (n : ℕ) :
    (s.Validate = none ↔ SceneValid s) ∧
    (∀ e, s.Validate = some e → s.Render n = .error e) ∧
    (∀ i, i < s.objects.length →
      (∀ j, j < i → ObjectValid (s.objects.getD j dummyObject)) →
      ¬ ObjectValid (s.objects.getD i dummyObject) →
      ∃ e, (s.objects.getD i dummyObject).Validate = some e ∧
        s.Validate = some (.invalidObject e)) ∧
    ((∀ o ∈ s.objects, ObjectValid o) → ¬ ColorValid s.bg →
      s.Validate = some (.invalidBackground (.colorOutOfRange s.bg))) ∧
    ((∀ o ∈ s.objects, ObjectValid o) → ColorValid s.bg →
      (s.kd < 0 ∨ s.kd > 1) → s.Validate = some (.invalidKd s.kd)) ∧
    ((∀ o ∈ s.objects, ObjectValid o) → ColorValid s.bg →
      ¬ (s.kd < 0 ∨ s.kd > 1) → ¬ PlaneValid s.viewFrustum.near →
      s.Validate = some (.invalidFrustum (.invalidNearPlane
        (.degeneratePlane s.viewFrustum.near)))) ∧
    ((∀ o ∈ s.objects, ObjectValid o) → ColorValid s.bg →
      ¬ (s.kd < 0 ∨ s.kd > 1) → PlaneValid s.viewFrustum.near →
      ¬ PlaneValid s.viewFrustum.far →
      s.Validate = some (.invalidFrustum (.invalidFarPlane
        (.degeneratePlane s.viewFrustum.far)))) ∧
    ((∃ o ∈ s.objects, o.sphere.radius = -1) → s.Validate ≠ none) ∧
    ((∃ o ∈ s.objects, o.color.r = 1.5 ∨ o.color.g = 1.5 ∨ o.color.b = 1.5) →
      s.Validate ≠ none) ∧
    (s.kd = -0.1 → s.Validate ≠ none) ∧
    (s.viewFrustum.near.tl.x = s.viewFrustum.near.br.x → s.Validate ≠ none) := by
  refine ⟨sceneValidate_none_iff s, ?_, ?_, ?_, ?_, ?_, ?_, ?_, ?_, ?_, ?_⟩
  · intro e he
    exact render_error s n e he
  · intro i hi hprev hbad
    obtain ⟨e, he1, he2⟩ := validateObjects_first s.objects i hi hprev hbad
    exact ⟨e, he1, sceneValidate_objects_err s _ he2⟩
  · intro hobj hbg
    apply sceneValidate_bg_err s _ ((validateObjects_none_iff _).mpr hobj)
    unfold Color.Validate
    rw [if_neg]
    unfold ColorValid at hbg
    exact hbg
  · intro hobj hbg hkd
    exact sceneValidate_kd_err s ((validateObjects_none_iff _).mpr hobj)
      ((colorValidate_none_iff _).mpr hbg) hkd
  · intro hobj hbg hkd hnear
    exact sceneValidate_frustum_err s _ ((validateObjects_none_iff _).mpr hobj)
      ((colorValidate_none_iff _).mpr hbg) hkd
      (frustumValidate_near_first s.viewFrustum hnear)
  · intro hobj hbg hkd hnear hfar
    exact sceneValidate_frustum_err s _ ((validateObjects_none_iff _).mpr hobj)
      ((colorValidate_none_iff _).mpr hbg) hkd
      (frustumValidate_far_first s.viewFrustum hnear hfar)
  · rintro ⟨o, ho, hr⟩ hnone
    obtain ⟨hall, -⟩ := (sceneValidate_none_iff s).mp hnone
    have h1 := (hall o ho).1
    rw [hr] at h1
    linarith
  · rintro ⟨o, ho, hch⟩ hnone
    obtain ⟨hall, -⟩ := (sceneValidate_none_iff s).mp hnone
    obtain ⟨-, hc⟩ := hall o ho
    unfold ColorValid isColorChannelValid at hc
    rcases hch with h | h | h
    · rw [h] at hc
      have h2 := hc.1.2
      norm_num at h2
    · rw [h] at hc
      have h2 := hc.2.1.2
      norm_num at h2
    · rw [h] at hc
      have h2 := hc.2.2.2
      norm_num at h2
  · intro hkd hnone
    obtain ⟨-, -, ⟨h1, -⟩, -⟩ := (sceneValidate_none_iff s).mp hnone
    rw [hkd] at h1
    norm_num at h1
  · intro hx hnone
    obtain ⟨-, -, -, ⟨h1, -⟩, -⟩ := (sceneValidate_none_iff s).mp hnone
    rw [hx] at h1
    exact lt_irrefl _ h1

/-- Witness for Validate_spec: the scene whose single object has radius -1
fails validation. -/
theorem Validate_spec_witness :
    (∃ o ∈ badScene.objects, o.sphere.radius = -1) ∧
    Scene.Validate badScene ≠ none := by
  have hex : ∃ o ∈ badScene.objects, o.sphere.radius = -1 :=
    ⟨⟨⟨⟨0, 0, 0⟩, -1⟩, red⟩, by simp [badScene], rfl⟩
  exact ⟨hex, (Validate_spec badScene 1).2.2.2.2.2.2.2.1 hex⟩

/-- C8 (code bug): the specified far-plane extrapolation scales y by the
ratio Far.Dy/Near.Dy, but renderPixel divides the y term by Near.Dx
instead: with near extents Dx=2, Dy=1 and far extents Dx=4, Dy=4, the
primary ray for the pixel (0, 1) reaches far-plane y-coordinate
1*farDy/nearDx = 2, while the specified formula y*farDy/nearDy gives 4. -/
theorem primaryRay_yfar_divergence :
    (Scene.primaryRay c8Scene 0 1).p1.y = 2 ∧
    (1:ℝ) * c8Scene.viewFrustum.far.Dy / c8Scene.viewFrustum.near.Dy = 4 ∧
    (Scene.primaryRay c8Scene 0 1).p1.y ≠
      (1:ℝ) * c8Scene.viewFrustum.far.Dy / c8Scene.viewFrustum.near.Dy := by
  norm_num [Scene.primaryRay, Scene.yfar, Scene.xfar, c8Scene,
    geom.Plane2d.Dy, geom.Plane2d.Dx]

lemma rowFold_eval (s : Scene) (y : ℕ) (w : ℕ) :
    ∀ (f : PixMap) (x' y' : ℕ),
    ((List.range w).foldl (fun g x => setRGBA g x y (s.pixelAt x y)) f) x' y' =
      if y' = y ∧ x' < w then s.pixelAt x' y' else f x' y' := by
  induction w with
  | zero =>
    intro f x' y'
    rw [if_neg (by omega)]
    rfl
  | succ w ih =>
    intro f x' y'
    rw [List.range_succ, List.foldl_append]
    simp only [List.foldl_cons, List.foldl_nil]
    by_cases hxy : x' = w ∧ y' = y
    · obtain ⟨hx, hy⟩ := hxy
      subst hx
      subst hy
      rw [if_pos ⟨rfl, by omega⟩]
      show setRGBA _ x' y' (s.pixelAt x' y') x' y' = s.pixelAt x' y'
      simp [setRGBA]
    · rw [show setRGBA ((List.range w).foldl (fun g x => setRGBA g x y (s.pixelAt x y)) f)
          w y (s.pixelAt w y) x' y' =
          ((List.range w).foldl (fun g x => setRGBA g x y (s.pixelAt x y)) f) x' y' from by
        simp only [setRGBA, if_neg hxy]]
      rw [ih f x' y']
      by_cases h2 : y' = y ∧ x' < w
      · rw [if_pos h2, if_pos ⟨h2.1, by omega⟩]
      · rw [if_neg h2, if_neg ?_]
        rintro ⟨hy, hx⟩
        by_cases hw : x' = w
        · exact hxy ⟨hw, hy⟩
        · exact h2 ⟨hy, by omega⟩

lemma renderRowInto_eval (s : Scene) (w y : ℕ) (f : PixMap) (x' y' : ℕ) :
    s.renderRowInto w y f x' y' =
      if y' = y ∧ x' < w then s.pixelAt x' y' else f x' y' :=
  rowFold_eval s y w f x' y'

lemma renderStripe_eval (s : Scene) (w : ℕ) :
    ∀ (k ys : ℕ) (f : PixMap) (x' y' : ℕ),
    s.renderStripe w ys (ys + k) f x' y' =
      if ys ≤ y' ∧ y' < ys + k ∧ x' < w then s.pixelAt x' y' else f x' y' := by
  intro k
  induction k with
  | zero =>
    intro ys f x' y'
    unfold Scene.renderStripe
    rw [show ys + 0 - ys = 0 from by omega]
    rw [if_neg (by omega)]
    rfl
  | succ k ih =>
    intro ys f x' y'
    unfold Scene.renderStripe
    rw [show ys + (k + 1) - ys = k + 1 from by omega]
    rw [List.range'_succ]
    simp only [List.foldl_cons]
    have hres := ih (ys + 1) (s.renderRowInto w ys f) x' y'
    unfold Scene.renderStripe at hres
    rw [show ys + 1 + k - (ys + 1) = k from by omega] at hres
    rw [hres]
    rw [renderRowInto_eval]
    by_cases h1 : ys + 1 ≤ y' ∧ y' < ys + 1 + k ∧ x' < w
    · rw [if_pos h1, if_pos ⟨by omega, by omega, h1.2.2⟩]
    · rw [if_neg h1]
      by_cases h2 : y' = ys ∧ x' < w
      · rw [if_pos h2, if_pos ⟨by omega, by omega, h2.2⟩]
      · rw [if_neg h2, if_neg ?_]
        rintro ⟨ha, hb, hc⟩
        by_cases hy : y' = ys
        · exact h2 ⟨hy, hc⟩
        · exact h1 ⟨by omega, by omega, hc⟩

lemma renderStripes_eval (s : Scene) (w slice : ℕ) :
    ∀ (n : ℕ) (x' y' : ℕ),
    s.renderStripes w slice n x' y' =
      if y' < slice * n ∧ x' < w then s.pixelAt x' y' else zeroRGBA := by
  intro n
  induction n with
  | zero =>
    intro x' y'
    rw [if_neg (by omega)]
    rfl
  | succ n ih =>
    intro x' y'
    unfold Scene.renderStripes at ih ⊢
    rw [List.range_succ, List.foldl_append]
    simp only [List.foldl_cons, List.foldl_nil]
    rw [renderStripe_eval s w slice (slice * n) _ x' y']
    rw [Nat.mul_succ]
    by_cases h1 : slice * n ≤ y' ∧ y' < slice * n + slice ∧ x' < w
    · rw [if_pos h1, if_pos ⟨by omega, h1.2.2⟩]
    · rw [if_neg h1]
      rw [ih x' y']
      by_cases h2 : y' < slice * n ∧ x' < w
      · rw [if_pos h2, if_pos ⟨by omega, h2.2⟩]
      · rw [if_neg h2, if_neg ?_]
        rintro ⟨ha, hb⟩
        by_cases hy : y' < slice * n
        · exact h2 ⟨hy, hb⟩
        · exact h1 ⟨by omega, by omega, hb⟩

lemma render_ok_eval (s : Scene) (n0 : ℕ) (hv : s.Validate = none) :
    s.Render n0 = .ok ⟨s.imgW, s.imgH,
      s.renderStripes s.imgW (s.imgH / (if n0 < 1 then 1 else n0))
        (if n0 < 1 then 1 else n0)⟩ := by
  unfold Scene.Render
  rw [hv]

lemma vScene_validate : Scene.Validate vScene = none := by
  rw [sceneValidate_none_iff]
  refine ⟨?_, ?_, ?_, ?_, ?_⟩
  · intro o ho
    simp [vScene] at ho
  · norm_num [ColorValid, isColorChannelValid, vScene, red]
  · norm_num [vScene]
  · norm_num [PlaneValid, vScene, nearPlane1]
  · norm_num [PlaneValid, vScene, farPlane1]

lemma vScene_imgW : Scene.imgW vScene = 1 := by
  unfold Scene.imgW
  norm_num [vScene, nearPlane1, geom.Plane2d.Dx, Int.floor_one]

lemma vScene_imgH : Scene.imgH vScene = 1 := by
  unfold Scene.imgH
  norm_num [vScene, nearPlane1, geom.Plane2d.Dy, Int.floor_one]

lemma v4Scene_imgH : Scene.imgH v4Scene = 4 := by
  unfold Scene.imgH
  rw [show v4Scene.viewFrustum.near.Dy = ((4:ℕ):ℝ) from by
    norm_num [v4Scene, nearPlane4, geom.Plane2d.Dy]]
  rw [Int.floor_natCast]
  rfl

lemma pixelAt_a (s : Scene) (x y : ℕ) : (s.pixelAt x y).a = 255 := rfl

/-- C6: for every scene accepted by validation and every nstripes ≥ 1,
Render writes pixels only into the rows 0 through nstripes*(h/nstripes) - 1
(nstripes contiguous bands of h/nstripes rows each, holding the rendered
pixel values), and all trailing rows — the h mod nstripes rows dropped when
nstripes does not divide the image height h — retain the buffer's initial
zero value. -/
theorem Render_row_truncation (s : Scene) (nstripes : ℕ) (img : Image)
    (h1 : 1 ≤ nstripes) (hok : s.Render nstripes = .ok img) :
    img.w = s.imgW ∧ img.h = s.imgH ∧
    (∀ x y, nstripes * (s.imgH / nstripes) ≤ y → img.pix x y = zeroRGBA) ∧
    (∀ x y, x < s.imgW → y < nstripes * (s.imgH / nstripes) →
      img.pix x y = s.pixelAt x y) := by
  have hv : s.Validate = none := by
    cases hv2 : s.Validate with
    | none => rfl
    | some e =>
      rw [render_error s nstripes e hv2] at hok
      exact absurd hok (by simp)
  rw [render_ok_eval s nstripes hv,
    show (if nstripes < 1 then 1 else nstripes) = nstripes from if_neg (by omega)]
    at hok
  simp only [Except.ok.injEq] at hok
  subst hok
  refine ⟨rfl, rfl, ?_, ?_⟩
  · intro x y hy
    show s.renderStripes s.imgW (s.imgH / nstripes) nstripes x y = zeroRGBA
    rw [renderStripes_eval, if_neg ?_]
    rintro ⟨ha, -⟩
    rw [Nat.mul_comm] at ha
    omega
  · intro x y hx hy
    show s.renderStripes s.imgW (s.imgH / nstripes) nstripes x y = s.pixelAt x y
    rw [renderStripes_eval, if_pos ⟨by rw [Nat.mul_comm]; omega, hx⟩]

/-- Witness for Render_row_truncation: rendering the valid height-1 scene
with 2 stripes gives stripe height 0, so even row 0 keeps the zero pixel. -/
theorem Render_row_truncation_witness :
    ((1:ℕ) ≤ 2 ∧ Scene.Render vScene 2 = .ok vImg2) ∧
    vImg2.pix 0 0 = zeroRGBA := by
  have hok : Scene.Render vScene 2 = .ok vImg2 := by
    rw [render_ok_eval vScene 2 vScene_validate]
    rfl
  refine ⟨⟨by norm_num, hok⟩, ?_⟩
  refine (Render_row_truncation vScene 2 vImg2 (by norm_num) hok).2.2.1 0 0 ?_
  rw [vScene_imgH]

/-- C5 (amended): Render with parallelism 1 and Render with parallelism 4
produce identical images provided 4 divides the image height; when it does
not, the single-stripe run renders the trailing h mod 4 rows while the
four-stripe run leaves them zero (see the counterexample), so byte-identical
output holds exactly under that divisibility proviso. -/
theorem Render_parallel_eq (s : Scene) (h4 : 4 ∣ s.imgH) :
    s.Render 1 = s.Render 4 := by
  cases hv : s.Validate with
  | some e => rw [render_error s 1 e hv, render_error s 4 e hv]
  | none =>
    rw [render_ok_eval s 1 hv, render_ok_eval s 4 hv]
    refine congrArg Except.ok ?_
    have hpix : s.renderStripes s.imgW (s.imgH / 1) 1 =
        s.renderStripes s.imgW (s.imgH / 4) 4 := by
      funext x y
      rw [renderStripes_eval, renderStripes_eval, Nat.div_one, Nat.mul_one,
        show s.imgH / 4 * 4 = s.imgH from Nat.div_mul_cancel h4]
    show Image.mk _ _ (s.renderStripes s.imgW (s.imgH / 1) 1) =
      Image.mk _ _ (s.renderStripes s.imgW (s.imgH / 4) 4)
    rw [hpix]

/-- Witness for Render_parallel_eq: the valid empty scene of height 4
renders identically with 1 and with 4 stripes. -/
theorem Render_parallel_eq_witness :
    (4 ∣ Scene.imgH v4Scene) ∧ Scene.Render v4Scene 1 = Scene.Render v4Scene 4 :=
  ⟨by rw [v4Scene_imgH], Render_parallel_eq v4Scene (by rw [v4Scene_imgH])⟩

/-- Counterexample to C5 as stated: on the valid empty scene of image height
1, parallelism 1 renders the single row (every written pixel has alpha 255)
while parallelism 4 uses stripe height 1/4 = 0 and renders nothing, leaving
the zero-initialized buffer (alpha 0): the two outputs differ at pixel
(0,0). -/
theorem Render_parallel_counterexample :
    Scene.Render vScene 1 ≠ Scene.Render vScene 4 := by
  intro he
  rw [render_ok_eval vScene 1 vScene_validate,
    render_ok_eval vScene 4 vScene_validate] at he
  simp only [Except.ok.injEq] at he
  have hpix := congrArg (fun i => Image.pix i 0 0) he
  simp only at hpix
  rw [renderStripes_eval, renderStripes_eval] at hpix
  rw [vScene_imgW, vScene_imgH] at hpix
  rw [if_pos (by norm_num), if_neg (by norm_num)] at hpix
  have ha := congrArg RGBA.a hpix
  rw [pixelAt_a] at ha
  exact absurd ha (by simp [zeroRGBA])

end goray
